import Mathlib

/-!
Verification development for the chantrader repository.

Part A models the frontend state store (`src/web/frontend/src/stores/appStore.ts`)
and the TypeScript record schemas (`src/web/frontend/src/types/index.ts`)
directly from the source.

Part B models the Chan-theory analysis engine. The engine's own source is not
part of the repository snapshot (only its type declarations and web callers
are), so those definitions are modelled from the specification, as marked in
their doc comments.
-/

namespace ChanTrader

/-- Direction of a stroke or segment, from the `direction: 'up' | 'down'`
union in `src/web/frontend/src/types/index.ts`. -/
inductive Direction where
  | up
  | down
deriving DecidableEq, Repr

/-- Stock identity record, from `StockInfo` in `types/index.ts`. -/
structure StockInfo where
  code : String
  name : String
deriving DecidableEq, Repr

/-- Chart layer toggles, from `PlotConfig` in `types/index.ts`. -/
structure PlotConfig where
  showKline : Bool
  showBi : Bool
  showSeg : Bool
  showZs : Bool
  showBsp : Bool
  showMacd : Bool
deriving DecidableEq, Repr

/-- A `Partial<PlotConfig>` value: each field is either absent (`none`) or
present with a boolean value, as in the TypeScript partial-update object. -/
structure PartialPlotConfig where
  showKline : Option Bool := none
  showBi : Option Bool := none
  showSeg : Option Bool := none
  showZs : Option Bool := none
  showBsp : Option Bool := none
  showMacd : Option Bool := none
deriving DecidableEq, Repr

/-- The eight K-line period kinds of the `KLineType` union in `types/index.ts`. -/
inductive KLineType where
  | min1
  | min5
  | min15
  | min30
  | min60
  | day
  | week
  | month
deriving DecidableEq, Repr

/-- One raw candle, from `KLineUnit` in `types/index.ts` (times and prices are
modelled as integers). -/
structure KLineUnit where
  idx : Nat
  time : Int
  open_ : Int
  high : Int
  low : Int
  close : Int
  volume : Int
deriving DecidableEq, Repr

/-- Stroke record at the web boundary, from `BiInfo` in `types/index.ts`. -/
structure BiInfo where
  idx : Nat
  begin_idx : Nat
  end_idx : Nat
  begin_x : Nat
  end_x : Nat
  begin_y : Int
  end_y : Int
  is_sure : Bool
  direction : Direction
deriving DecidableEq, Repr

/-- Segment record at the web boundary, from `SegInfo` in `types/index.ts`. -/
structure SegInfo where
  idx : Nat
  begin_idx : Nat
  end_idx : Nat
  begin_x : Nat
  end_x : Nat
  begin_y : Int
  end_y : Int
  is_sure : Bool
  direction : Direction
deriving DecidableEq, Repr

/-- Zone record at the web boundary, from `ZSInfo` in `types/index.ts`
(the TypeScript field `end` is a Lean keyword, rendered `end_`). -/
structure ZSInfo where
  idx : Nat
  begin_ : Nat
  end_ : Nat
  low : Int
  high : Int
  is_sure : Bool
deriving DecidableEq, Repr

/-- Signal record at the web boundary, from `BSPInfo` in `types/index.ts`;
its `type` field is a plain string in the source. -/
structure BSPInfo where
  idx : Nat
  x : Nat
  y : Int
  is_buy : Bool
  type : String
  is_sure : Bool
deriving DecidableEq, Repr

/-- MACD sample, from `MACDInfo` in `types/index.ts`. -/
structure MACDInfo where
  idx : Nat
  dif : Rat
  dea : Rat
  macd : Rat
deriving DecidableEq, Repr

/-- Per-timeframe analysis record, from `ChanAnalysisResult` in
`types/index.ts`. -/
structure ChanAnalysisResult where
  code : String
  name : String
  kl_type : String
  klines : List KLineUnit
  bi_list : List BiInfo
  seg_list : List SegInfo
  zs_list : List ZSInfo
  bsp_list : List BSPInfo
  macd_list : List MACDInfo
  dateticks : List String
deriving DecidableEq, Repr

/-- Multi-level analysis record, from `MultiLevelResult` in `types/index.ts`
(the `levels` string-keyed object is modelled as an association list). -/
structure MultiLevelResult where
  code : String
  name : String
  levels : List (String × ChanAnalysisResult)
deriving DecidableEq, Repr

/-- Field names of the `ZSInfo` interface, in declaration order
(`types/index.ts`, lines 60-67). -/
def zsInfoFields : List String :=
  ["idx", "begin", "end", "low", "high", "is_sure"]

/-- Field names of the `ChanAnalysisResult` interface, in declaration order
(`types/index.ts`, lines 88-99). -/
def chanAnalysisResultFields : List String :=
  ["code", "name", "kl_type", "klines", "bi_list", "seg_list", "zs_list",
   "bsp_list", "macd_list", "dateticks"]

/-- The list-valued fields of `ChanAnalysisResult`. -/
def chanAnalysisResultListFields : List String :=
  ["klines", "bi_list", "seg_list", "zs_list", "bsp_list", "macd_list",
   "dateticks"]

/-- The five structural lists named by the specification (§6 output record). -/
def specResultListFields : List String :=
  ["klines", "bi_list", "seg_list", "zs_list", "bsp_list"]

/-- Engine configuration record as the frontend declares it, from `ChanConfig`
in `types/index.ts` (lines 133-144): `macd_algo` and `bs_type` are plain
strings in the source. -/
structure ChanConfig where
  bi_strict : Bool
  trigger_step : Bool
  divergence_rate : Rat
  bsp2_follow_1 : Bool
  bsp3_follow_1 : Bool
  min_zs_cnt : Nat
  bs1_peak : Bool
  macd_algo : String
  bs_type : String
  zs_algo : String
deriving DecidableEq, Repr

/-- Field names of the `ChanConfig` interface, in declaration order
(`types/index.ts`, lines 133-144). -/
def chanConfigKeys : List String :=
  ["bi_strict", "trigger_step", "divergence_rate", "bsp2_follow_1",
   "bsp3_follow_1", "min_zs_cnt", "bs1_peak", "macd_algo", "bs_type",
   "zs_algo"]

/-- The configuration option names claimed by the specification (§6). -/
def specConfigKeys : List String :=
  ["bi_strict", "seg_algo", "zs_algo", "zs_combine", "divergence_rate",
   "min_zs_cnt", "bs_type", "trigger_step"]

/-- Application state held by the zustand store
(`src/web/frontend/src/stores/appStore.ts`, `AppState`). -/
structure AppState where
  currentStock : Option StockInfo
  analysisResult : Option ChanAnalysisResult
  multiLevelResult : Option MultiLevelResult
  isAnalyzing : Bool
  klType : KLineType
  periods : Int
  selectedLevels : List KLineType
  plotConfig : PlotConfig
  history : List StockInfo
deriving DecidableEq, Repr

/-- `addToHistory` from `appStore.ts` (lines 92-99): drop previous entries
with the new stock's code, push the stock to the front, keep at most 20. -/
def addToHistory (stock : StockInfo) (state : AppState) : AppState :=
  { state with
    history :=
      (stock :: state.history.filter (fun s => s.code ≠ stock.code)).take 20 }

/-- Spread-merge `{ ...cur, ...p }` of a current `PlotConfig` with a partial
update, as performed by `setPlotConfig` in `appStore.ts` (lines 87-90). -/
def mergePlotConfig (cur : PlotConfig) (p : PartialPlotConfig) : PlotConfig where
  showKline := p.showKline.getD cur.showKline
  showBi := p.showBi.getD cur.showBi
  showSeg := p.showSeg.getD cur.showSeg
  showZs := p.showZs.getD cur.showZs
  showBsp := p.showBsp.getD cur.showBsp
  showMacd := p.showMacd.getD cur.showMacd

/-- `setPlotConfig` from `appStore.ts` (lines 87-90): replaces `plotConfig`
with the spread-merge of the old value and the partial update, leaving the
rest of the state alone. -/
def setPlotConfig (p : PartialPlotConfig) (state : AppState) : AppState :=
  { state with plotConfig := mergePlotConfig state.plotConfig p }

/-- The record shape persisted by the `partialize` option of the store
(`appStore.ts`, lines 104-110). -/
structure PersistedState where
  klType : KLineType
  periods : Int
  selectedLevels : List KLineType
  plotConfig : PlotConfig
  history : List StockInfo
deriving DecidableEq, Repr

/-- `partialize` from `appStore.ts` (lines 104-110): the projection of the
application state that is written to persistent storage. -/
def partialize (state : AppState) : PersistedState :=
  { klType := state.klType
    periods := state.periods
    selectedLevels := state.selectedLevels
    plotConfig := state.plotConfig
    history := state.history }

/-- Storage key of the persist middleware (`appStore.ts`, line 103). -/
def storageKey : String := "chan-web-storage"

/-- What a state update writes to persistent storage: the storage key paired
with the partialized projection of the new state. -/
def persistEntry (state : AppState) : String × PersistedState :=
  (storageKey, partialize state)

/-! ### Part B: the Chan analysis engine, modelled from the specification

The engine (bar merger, stroke builder, segment builder, zone builder, signal
classifier, analysis context) is consumed by the web layer in this repository
but its own source is not in the snapshot; the definitions below are modelled
from the specification (§3-§7). -/

/-- Modelled from the spec: the closed set of signal types
(§3, Signal: "one of a closed set: 1, 2, 3a, 3b, 1p, 2s"). -/
inductive BspType where
  | t1
  | t2
  | t3a
  | t3b
  | t1p
  | t2s
deriving DecidableEq, Repr

/-- Modelled from the spec: the selectable segment algorithms
(§6, `seg_algo {chan, "1+1", break}`). -/
inductive SegAlgo where
  | chan
  | onePlusOne
  | brk
deriving DecidableEq, Repr

/-- Modelled from the spec: the selectable zone algorithms
(§6, `zs_algo {normal, over_seg, auto}`). -/
inductive ZsAlgo where
  | normal
  | overSeg
  | auto
deriving DecidableEq, Repr

/-- Modelled from the spec: the engine configuration record of §6, with the
string-keyed dictionary replaced by an explicit record as §9 directs
(`divergence_rate` is a float in the spec, modelled as a rational). -/
structure Conf where
  bi_strict : Bool
  seg_algo : SegAlgo
  zs_algo : ZsAlgo
  zs_combine : Bool
  divergence_rate : Rat
  min_zs_cnt : Nat
  bs_type : List BspType
  trigger_step : Bool
deriving DecidableEq, Repr

/-- Modelled from the spec: a raw OHLCV bar (§3, Bar), with integer times and
prices. -/
structure Bar where
  time : Int
  open_ : Int
  high : Int
  low : Int
  close : Int
  volume : Int
deriving DecidableEq, Repr

/-- Direction of a merged candle; unlike strokes it may be undetermined before
two non-inclusive candles exist (§4.1). -/
inductive CandleDir where
  | up
  | down
  | undetermined
deriving DecidableEq, Repr

/-- Modelled from the spec: a merged candle (§3, MergedCandle). -/
structure MergedCandle where
  idx : Nat
  high : Int
  low : Int
  direction : CandleDir
  beginBar : Nat
  endBar : Nat
deriving DecidableEq, Repr

/-- Whether one bar-range contains the other (the inclusion relationship of
§4.1). -/
def inclusion (hi1 lo1 hi2 lo2 : Int) : Bool :=
  (hi2 ≤ hi1 && lo1 ≤ lo2) || (hi1 ≤ hi2 && lo2 ≤ lo1)

/-- Modelled from the spec: one step of the bar merger (§4.1). On inclusion,
merge into the last candle taking the directionally-extreme bounds; otherwise
establish direction from the relative highs and append a new candle. -/
def mergeStep (mcs : List MergedCandle) (barIdx : Nat) (b : Bar) :
    List MergedCandle :=
  match mcs.getLast? with
  | none => [⟨0, b.high, b.low, .undetermined, barIdx, barIdx⟩]
  | some last =>
    if inclusion last.high last.low b.high b.low then
      let merged :=
        match last.direction with
        | .down =>
          { last with
            high := min last.high b.high
            low := min last.low b.low
            endBar := barIdx }
        | _ =>
          { last with
            high := max last.high b.high
            low := max last.low b.low
            endBar := barIdx }
      mcs.dropLast ++ [merged]
    else
      let dir : CandleDir := if last.high < b.high then .up else .down
      mcs ++ [⟨last.idx + 1, b.high, b.low, dir, barIdx, barIdx⟩]

/-- Modelled from the spec: the bar merger over a full bar history (§4.1; the
context is recomputable from the bar history, §3 AnalysisContext). -/
def mergeBars (bars : List Bar) : List MergedCandle :=
  (bars.enum.foldl (fun mcs ib => mergeStep mcs ib.1 ib.2) [])

/-- Kind of a fractal pivot (§3, Fractal: top or bottom). -/
inductive FracType where
  | top
  | bottom
deriving DecidableEq, Repr

/-- The opposite fractal kind. -/
def oppType : FracType → FracType
  | .top => .bottom
  | .bottom => .top

/-- Modelled from the spec: a fractal pivot consumed immediately by stroke
construction (§3); `price` is the candle's high for a top, low for a bottom. -/
structure Fractal where
  typ : FracType
  idx : Nat
  price : Int
deriving DecidableEq, Repr

/-- Modelled from the spec: the top-fractal test of §4.2 — the middle candle's
high exceeds both neighbours' highs; strict mode further requires strict
inequality on the lows of both sides, loose mode only asks the low to be at
least the right neighbour's. -/
def isTopFractal (strict : Bool) (a b c : MergedCandle) : Bool :=
  if strict then
    a.high < b.high && c.high < b.high && a.low < b.low && c.low < b.low
  else
    a.high < b.high && c.high < b.high && c.low ≤ b.low

/-- Modelled from the spec: the bottom-fractal test, mirror of the top test
(§4.2). -/
def isBottomFractal (strict : Bool) (a b c : MergedCandle) : Bool :=
  if strict then
    b.low < a.low && b.low < c.low && b.high < a.high && b.high < c.high
  else
    b.low < a.low && b.low < c.low && b.high ≤ c.high

/-- Modelled from the spec: scan of the merged-candle sequence for fractal
pivots, in candle order (§4.2). -/
def collectFractals (strict : Bool) : List MergedCandle → List Fractal
  | a :: b :: c :: rest =>
    let tail := collectFractals strict (b :: c :: rest)
    if isTopFractal strict a b c then ⟨.top, b.idx, b.high⟩ :: tail
    else if isBottomFractal strict a b c then ⟨.bottom, b.idx, b.low⟩ :: tail
    else tail
  | _ => []

/-- Modelled from the spec: a stroke (§3, Stroke). -/
structure Stroke where
  idx : Nat
  beginIdx : Nat
  endIdx : Nat
  beginPrice : Int
  endPrice : Int
  direction : Direction
  confirmed : Bool
deriving DecidableEq, Repr

/-- Direction of the stroke that starts at a fractal of the given kind: a
stroke from a bottom runs up, from a top runs down (§4.2). -/
def strokeDir : FracType → Direction
  | .bottom => .up
  | .top => .down

/-- Kind of the fractal at which a stroke of the given direction ends: an up
stroke ends at a top, a down stroke at a bottom (§4.2). -/
def endType : Direction → FracType
  | .up => .top
  | .down => .bottom

/-- Whether fractal `f` is more extreme than fractal `p` of the same kind
(higher top / lower bottom); the same comparison also decides whether an
opposite-kind fractal's extremum exceeds a candidate stroke's start (§4.2). -/
def moreExtreme (f p : Fractal) : Bool :=
  match f.typ with
  | .top => p.price < f.price
  | .bottom => f.price < p.price

/-- Modelled from the spec: minimum stroke length in merged candles
(§3, "a stroke's length must meet the configured minimum"; the conventional
Chan value of 4 is used). -/
def strokeMinGap : Nat := 4

/-- Replace the endpoint of the newest stroke with the given fractal's
position and price — the revision of the unconfirmed tail (§4.2). -/
def reviseTail (ss : List Stroke) (f : Fractal) : List Stroke :=
  match ss.getLast? with
  | none => ss
  | some t => ss.dropLast ++ [{ t with endIdx := f.idx, endPrice := f.price }]

/-- State of the stroke builder: the strokes built so far and the pending
unconsummated fractal (§4.2). -/
abbrev StrokeState := List Stroke × Option Fractal

/-- Modelled from the spec: one step of the stroke builder (§4.2). A fractal of
the pending kind either improves the pending pivot (revising the newest
stroke's endpoint) or is noise; an opposite-kind fractal far enough away whose
extremum exceeds the pending pivot consummates a new stroke, else it is
discarded as noise. -/
def strokeStep (st : StrokeState) (f : Fractal) : StrokeState :=
  match st with
  | (ss, none) => (ss, some f)
  | (ss, some p) =>
    if f.typ = p.typ then
      if moreExtreme f p then (reviseTail ss f, some f) else (ss, some p)
    else
      if strokeMinGap ≤ f.idx - p.idx && moreExtreme f p then
        (ss ++ [⟨ss.length, p.idx, f.idx, p.price, f.price,
                 strokeDir p.typ, false⟩], some f)
      else (ss, some p)

/-- Mark every stroke but the newest as confirmed: earlier elements are
append-only, only the tail is revisable (§3, §9). -/
def markConfirmed : List Stroke → List Stroke
  | [] => []
  | [s] => [{ s with confirmed := false }]
  | s :: rest => { s with confirmed := true } :: markConfirmed rest

/-- Modelled from the spec: the stroke builder over a merged-candle history
(§4.2), as the batch recomputation that §3 licenses. -/
def buildStrokes (strict : Bool) (mcs : List MergedCandle) : List Stroke :=
  markConfirmed ((collectFractals strict mcs).foldl strokeStep ([], none)).1

/-- Modelled from the spec: a segment (§3, Segment). -/
structure Segment where
  idx : Nat
  beginIdx : Nat
  endIdx : Nat
  beginPrice : Int
  endPrice : Int
  direction : Direction
  confirmed : Bool
deriving DecidableEq, Repr

/-- The opposite swing direction. -/
def oppDir : Direction → Direction
  | .up => .down
  | .down => .up

/-- The in-progress segment of the segment builder: its start, direction,
strokes gathered so far (most recent first), and running terminal extremum
(§4.3). -/
structure CurSeg where
  beginIdx : Nat
  beginPrice : Int
  dir : Direction
  hist : List Stroke
  extremum : Int
deriving DecidableEq, Repr

/-- State of the segment builder. -/
structure SegState where
  segs : List Segment
  cur : Option CurSeg
deriving DecidableEq, Repr

/-- The [low, high] range spanned by a stroke's endpoints. -/
def strokeRange (s : Stroke) : Int × Int :=
  (min s.beginPrice s.endPrice, max s.beginPrice s.endPrice)

/-- Modelled from the spec: feature-sequence elements of an in-progress
segment — the ranges of its counter-direction strokes, oldest first (§3
FeatureSequence, §4.3). -/
def featureElems (d : Direction) (hist : List Stroke) : List (Int × Int) :=
  (hist.reverse.filter (fun s => s.direction ≠ d)).map strokeRange

/-- Merge adjacent feature elements standing in an inclusion relationship
(§4.3): the contained pair is collapsed to the union of the two ranges. -/
def fsMerge : List (Int × Int) → List (Int × Int)
  | a :: b :: rest =>
    if inclusion a.2 a.1 b.2 b.1 then
      fsMerge ((min a.1 b.1, max a.2 b.2) :: rest)
    else a :: fsMerge (b :: rest)
  | l => l
termination_by l => l.length

/-- Modelled from the spec: the characteristic-sequence break test (§4.3,
"chan") — the last three merged feature elements form a fractal opposing the
segment direction, confirmed by an overlap between the first two elements. -/
def fsBreak (d : Direction) (fs : List (Int × Int)) : Bool :=
  match fs.reverse with
  | c :: b :: a :: _ =>
    (max a.1 b.1 ≤ min a.2 b.2) &&
      (match d with
       | .up => a.2 < b.2 && c.2 < b.2
       | .down => b.1 < a.1 && b.1 < c.1)
  | _ => false

/-- Modelled from the spec: the "1+1" close test (§4.3) — the incoming stroke
runs counter to the segment and, together with the most recent previous
counter stroke, carries price beyond the segment's terminal extremum. -/
def onePlusOneBreak (c : CurSeg) (s : Stroke) : Bool :=
  s.direction ≠ c.dir &&
    (match c.hist.find? (fun t => t.direction ≠ c.dir) with
     | some t =>
       (match c.dir with
        | .up => s.endPrice < c.extremum && t.endPrice < c.extremum
        | .down => c.extremum < s.endPrice && c.extremum < t.endPrice)
     | none => false)

/-- Modelled from the spec: the plain break close test (§6 lists `break` as a
third `seg_algo` value) — a single counter stroke carrying price beyond the
segment's start. -/
def plainBreak (c : CurSeg) (s : Stroke) : Bool :=
  s.direction ≠ c.dir &&
    (match c.dir with
     | .up => s.endPrice < c.beginPrice
     | .down => c.beginPrice < s.endPrice)

/-- Modelled from the spec: whether the incoming stroke closes the in-progress
segment, per the selected algorithm (§4.3). -/
def segCloses (algo : SegAlgo) (c : CurSeg) (s : Stroke) : Bool :=
  match algo with
  | .chan => fsBreak c.dir (fsMerge (featureElems c.dir (s :: c.hist)))
  | .onePlusOne => onePlusOneBreak c s
  | .brk => plainBreak c s

/-- Update the running terminal extremum of an in-progress segment with a new
stroke (§4.3). -/
def updExtremum (c : CurSeg) (s : Stroke) : Int :=
  if s.direction = c.dir then
    match c.dir with
    | .up => max c.extremum s.endPrice
    | .down => min c.extremum s.endPrice
  else c.extremum

/-- Modelled from the spec: one step of the segment builder (§4.3). On a
close, the finished segment is emitted and the next segment starts in the
opposite direction at the break stroke. -/
def segStep (algo : SegAlgo) (st : SegState) (s : Stroke) : SegState :=
  match st.cur with
  | none =>
    { st with cur := some ⟨s.idx, s.beginPrice, s.direction, [s], s.endPrice⟩ }
  | some c =>
    if segCloses algo c s then
      { segs := st.segs ++
          [⟨st.segs.length, c.beginIdx, s.idx, c.beginPrice, s.endPrice,
            c.dir, false⟩],
        cur := some ⟨s.idx, s.beginPrice, oppDir c.dir, [s], s.endPrice⟩ }
    else
      { st with
        cur := some { c with hist := s :: c.hist, extremum := updExtremum c s } }

/-- Mark every segment but the newest as confirmed (§3, §9). -/
def markConfirmedSeg : List Segment → List Segment
  | [] => []
  | [s] => [{ s with confirmed := false }]
  | s :: rest => { s with confirmed := true } :: markConfirmedSeg rest

/-- Modelled from the spec: the segment builder over a stroke history (§4.3),
as the batch recomputation that §3 licenses. -/
def buildSegments (algo : SegAlgo) (ss : List Stroke) : List Segment :=
  markConfirmedSeg ((ss.foldl (segStep algo) ⟨[], none⟩).segs)

/-- Modelled from the spec: a consolidation zone (§3, Zone). -/
structure Zone where
  idx : Nat
  beginI : Nat
  endI : Nat
  low : Int
  high : Int
  confirmed : Bool
  extended : Bool
deriving DecidableEq, Repr

/-- A swing at zone granularity: the [low, high] range of one stroke or
segment, with its index in the driving list (§4.4). -/
structure Swing where
  low : Int
  high : Int
  idx : Nat
deriving DecidableEq, Repr

/-- The swing of a stroke. -/
def strokeSwing (s : Stroke) : Swing :=
  ⟨min s.beginPrice s.endPrice, max s.beginPrice s.endPrice, s.idx⟩

/-- The swing of a segment. -/
def segSwing (s : Segment) : Swing :=
  ⟨min s.beginPrice s.endPrice, max s.beginPrice s.endPrice, s.idx⟩

/-- Whether two swings' [low, high] ranges overlap. -/
def overlaps (a b : Swing) : Prop :=
  max a.low b.low ≤ min a.high b.high

instance (a b : Swing) : Decidable (overlaps a b) := by
  unfold overlaps; infer_instance

/-- Pairwise overlap of three consecutive swings (§4.4). -/
def pairwiseOverlap (a b c : Swing) : Prop :=
  overlaps a b ∧ overlaps b c ∧ overlaps a c

instance (a b c : Swing) : Decidable (pairwiseOverlap a b c) := by
  unfold pairwiseOverlap; infer_instance

/-- Modelled from the spec: the zone-opening rule (§4.4) — three consecutive
swings open a zone candidate exactly when their ranges have a common
intersection, whose bounds are that intersection. -/
def tryOpenZone (a b c : Swing) : Option (Int × Int) :=
  let lo := max a.low (max b.low c.low)
  let hi := min a.high (min b.high c.high)
  if lo ≤ hi then some (lo, hi) else none

/-- State of the zone builder: finished zones, the open zone candidate, the
window of recent swings while no zone is open, and whether a breakout is
pending confirmation (§4.4). -/
structure ZoneState where
  zones : List Zone
  openZ : Option Zone
  window : List Swing
  pendingBreak : Bool
deriving DecidableEq, Repr

/-- Whether a swing lies entirely outside a zone's bounds (§4.4). -/
def swingOutside (z : Zone) (c : Swing) : Bool :=
  c.high < z.low || z.high < c.low

/-- Close the open zone: append it as confirmed, merging it into the previous
zone when `zs_combine` is set and the two zones' bounds still overlap (§4.4). -/
def closeZone (combine : Bool) (zs : List Zone) (z : Zone) : List Zone :=
  let z := { z with confirmed := true }
  if combine then
    match zs.getLast? with
    | some p =>
      if max p.low z.low ≤ min p.high z.high then
        zs.dropLast ++
          [{ p with
              endI := z.endI
              low := max p.low z.low
              high := min p.high z.high
              extended := true }]
      else zs ++ [z]
    | none => zs ++ [z]
  else zs ++ [z]

/-- Modelled from the spec: one step of the zone builder (§4.4). Closure is
checked before extension (§9 design note); the `over_seg` algorithm closes on
an immediate break, `normal` (and `auto`) require the breakout to survive one
more swing; a swing still overlapping the intersection shrinks the bounds by
intersection and flags the zone extended. -/
def zoneStep (cfg : Conf) (st : ZoneState) (c : Swing) : ZoneState :=
  match st.openZ with
  | some z =>
    if swingOutside z c then
      if cfg.zs_algo = .overSeg || st.pendingBreak then
        { zones := closeZone cfg.zs_combine st.zones z, openZ := none,
          window := [c], pendingBreak := false }
      else
        { st with pendingBreak := true }
    else
      { st with
        openZ := some
          { z with
            low := max z.low c.low
            high := min z.high c.high
            endI := c.idx
            extended := true }
        pendingBreak := false }
  | none =>
    match st.window with
    | [a, b] =>
      match tryOpenZone a b c with
      | some (lo, hi) =>
        { zones := st.zones,
          openZ := some ⟨st.zones.length, a.idx, c.idx, lo, hi, false, false⟩,
          window := [], pendingBreak := false }
      | none => { st with window := [b, c] }
    | w => { st with window := w ++ [c] }

/-- Modelled from the spec: which swing granularity drives the zone builder
(§4.4): segments normally, strokes under `over_seg`, and under `auto`
whichever of the two is actually driving (segments when any exist). -/
def zoneSwings (cfg : Conf) (ss : List Stroke) (segs : List Segment) :
    List Swing :=
  match cfg.zs_algo with
  | .normal => segs.map segSwing
  | .overSeg => ss.map strokeSwing
  | .auto => if segs.isEmpty then ss.map strokeSwing else segs.map segSwing

/-- Modelled from the spec: the zone builder over a full swing history (§4.4);
the still-open candidate is reported unconfirmed at the tail. -/
def buildZones (cfg : Conf) (ss : List Stroke) (segs : List Segment) :
    List Zone :=
  let fin := (zoneSwings cfg ss segs).foldl (zoneStep cfg)
    ⟨[], none, [], false⟩
  fin.zones ++ fin.openZ.toList

/-- Modelled from the spec: a classified buy/sell point (§3, Signal); the
divergence measurement is kept as the (later area, earlier area) pair that
triggered the signal. -/
structure Signal where
  idx : Nat
  typ : BspType
  isBuy : Bool
  confirmed : Bool
  divergence : Int × Int
deriving DecidableEq, Repr

/-- Modelled from the spec: the momentum-proxy area of a swing (§4.5 leaves
the proxy abstract; the price amplitude of the swing is used). -/
def momentumArea (beginPrice endPrice : Int) : Int :=
  ((endPrice - beginPrice).natAbs : Int)

/-- Modelled from the spec: the divergence test of §4.5 — fires when the later
swing's area is at most `divergence_rate` times the earlier swing's area
(stated by cross-multiplication with the rate's numerator and denominator). -/
def divergenceOK (rate : Rat) (earlier later : Int) : Prop :=
  later * (rate.den : Int) ≤ rate.num * earlier

instance (rate : Rat) (earlier later : Int) :
    Decidable (divergenceOK rate earlier later) := by
  unfold divergenceOK; infer_instance

/-- The relaxed divergence test gating the peripheral `1p` variant (§4.5): the
rate is widened by ten percent. -/
def relaxedDivergenceOK (rate : Rat) (earlier later : Int) : Prop :=
  later * ((rate.den : Int) * 10) ≤ rate.num * 11 * earlier

instance (rate : Rat) (earlier later : Int) :
    Decidable (relaxedDivergenceOK rate earlier later) := by
  unfold relaxedDivergenceOK; infer_instance

/-- Modelled from the spec: candidate type-1 / type-1p signals at trend
exhaustion (§4.5) — the last segment pushes past the previous same-direction
segment's extreme while its momentum area fails to keep up; the peripheral
`1p` variant fires under a relaxed (10% wider) rate when the strict one does
not. -/
def type1Signals (cfg : Conf) (segs : List Segment) : List Signal :=
  match segs.reverse with
  | last :: _ :: prev :: _ =>
    if last.direction = prev.direction then
      let newExtreme : Bool :=
        match last.direction with
        | .down => last.endPrice < prev.endPrice
        | .up => prev.endPrice < last.endPrice
      let earlier := momentumArea prev.beginPrice prev.endPrice
      let later := momentumArea last.beginPrice last.endPrice
      if newExtreme then
        if divergenceOK cfg.divergence_rate earlier later then
          [⟨last.endIdx, .t1, last.direction = .down, last.confirmed,
            (later, earlier)⟩]
        else if relaxedDivergenceOK cfg.divergence_rate earlier later then
          [⟨last.endIdx, .t1p, last.direction = .down, last.confirmed,
            (later, earlier)⟩]
        else []
      else []
    else []
  | _ => []

/-- Modelled from the spec: candidate type-2 / type-2s signals (§4.5) — the
last segment retests the extreme of the segment before it without breaking
past; the secondary `2s` variant fires when the retest stays strictly inside
the zone span. -/
def type2Signals (zones : List Zone) (segs : List Segment) :
    List Signal :=
  match segs.reverse, zones.getLast? with
  | last :: prev :: _, some z =>
    if last.direction = oppDir prev.direction then
      let retest : Bool :=
        match prev.direction with
        | .down => z.low ≤ last.endPrice
        | .up => last.endPrice ≤ z.high
      let inside : Bool := z.low ≤ last.endPrice && last.endPrice ≤ z.high
      if retest then
        if inside then
          [⟨last.endIdx, .t2s, prev.direction = .down, last.confirmed,
            (1, 1)⟩]
        else
          [⟨last.endIdx, .t2, prev.direction = .down, last.confirmed,
            (1, 1)⟩]
      else []
    else []
  | _, _ => []

/-- Modelled from the spec: candidate type-3a / type-3b signals (§4.5) — the
last stroke breaks out of the newest zone and retests its boundary; `3a` when
the retest stays outside the zone, `3b` when it happens from inside a newly
formed zone. -/
def type3Signals (zones : List Zone) (ss : List Stroke) : List Signal :=
  match ss.reverse, zones.getLast? with
  | last :: _, some z =>
    if z.high < last.beginPrice && z.high < last.endPrice then
      [⟨last.idx, .t3a, true, last.confirmed, (1, 1)⟩]
    else if last.beginPrice < z.low && last.endPrice < z.low then
      [⟨last.idx, .t3a, false, last.confirmed, (1, 1)⟩]
    else if z.low ≤ last.endPrice && last.endPrice ≤ z.high &&
        (last.beginPrice < z.low || z.high < last.beginPrice) then
      [⟨last.idx, .t3b, z.high < last.beginPrice, last.confirmed,
        (1, 1)⟩]
    else []
  | _, _ => []

/-- Modelled from the spec: the signal classifier (§4.5) — candidate signals
are gathered once at least `min_zs_cnt` zones exist, then restricted to the
configured `bs_type` set (§6). -/
def buildSignals (cfg : Conf) (zones : List Zone) (segs : List Segment)
    (ss : List Stroke) : List Signal :=
  let raw :=
    if cfg.min_zs_cnt ≤ zones.length then
      type1Signals cfg segs ++ type2Signals zones segs ++
        type3Signals zones ss
    else []
  raw.filter (fun s => s.typ ∈ cfg.bs_type)

/-- Modelled from the spec: the error taxonomy (§7) — malformed bars and bad
configurations. -/
inductive ChanError where
  | dataError
  | configError
deriving DecidableEq, Repr

/-- Modelled from the spec: the per-(instrument, timeframe) aggregate owning
the five ordered structural lists (§3, AnalysisContext). -/
structure AnalysisContext where
  conf : Conf
  bars : List Bar
  mergedCandles : List MergedCandle
  strokes : List Stroke
  segments : List Segment
  zones : List Zone
  signals : List Signal
deriving DecidableEq, Repr

/-- Modelled from the spec: run the five stages in order over a full bar
history (§2; §3 states the context is recomputable from the bar history). -/
def recompute (cfg : Conf) (bars : List Bar) : AnalysisContext :=
  let mcs := mergeBars bars
  let ss := buildStrokes cfg.bi_strict mcs
  let segs := buildSegments cfg.seg_algo ss
  let zones := buildZones cfg ss segs
  let sigs := buildSignals cfg zones segs ss
  ⟨cfg, bars, mcs, ss, segs, zones, sigs⟩

/-- The fresh context for a configuration, before any bar is fed. -/
def initContext (cfg : Conf) : AnalysisContext :=
  recompute cfg []

/-- Modelled from the spec: whether an incoming bar is malformed (§4.1, §7) —
its low exceeds its high, or its timestamp is not strictly greater than the
previous bar's. -/
def barMalformed (ctx : AnalysisContext) (b : Bar) : Bool :=
  b.high < b.low ||
    (match ctx.bars.getLast? with
     | some p => b.time ≤ p.time
     | none => false)

/-- Modelled from the spec: the incremental feed-one-bar operation (§2, §7).
A malformed bar is rejected with `DataError` and the context is left exactly
as it was; a well-formed bar extends the bar history and recomputes the
stages. -/
def feed (ctx : AnalysisContext) (b : Bar) :
    AnalysisContext × Option ChanError :=
  if barMalformed ctx b then (ctx, some .dataError)
  else (recompute ctx.conf (ctx.bars ++ [b]), none)

/-- Modelled from the spec: replaying a bar sequence into a fresh context
(§6, batch = repeated single feeds in order; §8 idempotence). -/
def replay (cfg : Conf) (bars : List Bar) : AnalysisContext :=
  bars.foldl (fun ctx b => (feed ctx b).1) (initContext cfg)

/-- Modelled from the spec: context creation over a raw string-keyed option
dictionary (§9) — unknown keys are rejected with `ConfigError` at creation;
`rawKeys` are the option names appearing in the caller's dictionary. -/
def mkContext (rawKeys : List String) (cfg : Conf) :
    Except ChanError AnalysisContext :=
  if rawKeys.all (fun k => k ∈ chanConfigKeys) then .ok (initContext cfg)
  else .error .configError

/-- Serialize a stroke into the web-boundary record shape. -/
def biInfoOfStroke (s : Stroke) : BiInfo :=
  ⟨s.idx, s.beginIdx, s.endIdx, s.beginIdx, s.endIdx, s.beginPrice,
   s.endPrice, s.confirmed, s.direction⟩

/-- Serialize a segment into the web-boundary record shape. -/
def segInfoOfSegment (s : Segment) : SegInfo :=
  ⟨s.idx, s.beginIdx, s.endIdx, s.beginIdx, s.endIdx, s.beginPrice,
   s.endPrice, s.confirmed, s.direction⟩

/-- Serialize a zone into the web-boundary record shape. -/
def zsInfoOfZone (z : Zone) : ZSInfo :=
  ⟨z.idx, z.beginI, z.endI, z.low, z.high, z.confirmed⟩

/-- The string tag of a signal type at the web boundary. -/
def bspTypeString : BspType → String
  | .t1 => "1"
  | .t2 => "2"
  | .t3a => "3a"
  | .t3b => "3b"
  | .t1p => "1p"
  | .t2s => "2s"

/-- Serialize a signal into the web-boundary record shape. -/
def bspInfoOfSignal (s : Signal) : BSPInfo :=
  ⟨s.idx, s.idx, 0, s.isBuy, bspTypeString s.typ, s.confirmed⟩

/-- Serialize a merged candle into the web-boundary record shape. -/
def klineOfMerged (m : MergedCandle) : KLineUnit :=
  ⟨m.idx, Int.ofNat m.beginBar, m.low, m.high, m.low, m.high, 0⟩

/-- Modelled from the spec: the structural record queryable at the engine
boundary after a feed (§6, Output), in the record shape the web layer
declares. -/
def queryRecord (code name klt : String) (ctx : AnalysisContext) :
    ChanAnalysisResult :=
  { code := code
    name := name
    kl_type := klt
    klines := ctx.mergedCandles.map klineOfMerged
    bi_list := ctx.strokes.map biInfoOfStroke
    seg_list := ctx.segments.map segInfoOfSegment
    zs_list := ctx.zones.map zsInfoOfZone
    bsp_list := ctx.signals.map bspInfoOfSignal
    macd_list := []
    dateticks := ctx.bars.map (fun b => toString b.time) }

/-- A concrete default configuration used by witnesses. -/
def defaultConf : Conf :=
  { bi_strict := false
    seg_algo := .onePlusOne
    zs_algo := .overSeg
    zs_combine := false
    divergence_rate := Rat.mk' 9 10 (by decide) (by decide)
    min_zs_cnt := 0
    bs_type := [.t1, .t2, .t3a, .t3b, .t1p, .t2s]
    trigger_step := true }

/-- The direction sequence of a stroke list. -/
def strokeDirs (l : List Stroke) : List Direction :=
  l.map Stroke.direction

/-- The direction sequence of a segment list. -/
def segmentDirs (l : List Segment) : List Direction :=
  l.map Segment.direction

/-- Consecutive elements of a direction sequence alternate (§3, §8). -/
def Alternating (ds : List Direction) : Prop :=
  List.Chain' (fun a b => a ≠ b) ds

/-- Invariant of the stroke builder: the strokes built so far alternate in
direction, and when a newest stroke exists the pending fractal is its end
pivot (same kind as the stroke's end). -/
def StrokeInv (st : StrokeState) : Prop :=
  Alternating (strokeDirs st.1) ∧
    ∀ t ∈ st.1.getLast?, ∃ p, st.2 = some p ∧ p.typ = endType t.direction

/-- Invariant of the segment builder: the segments built so far alternate in
direction, and when a newest segment exists the in-progress segment runs in
the opposite direction. -/
def SegInv (st : SegState) : Prop :=
  Alternating (segmentDirs st.segs) ∧
    ∀ t ∈ st.segs.getLast?, ∃ c, st.cur = some c ∧ c.dir = oppDir t.direction

/-! ### Theorems -/

theorem strokeDirs_reviseTail (ss : List Stroke) (f : Fractal) :
    strokeDirs (reviseTail ss f) = strokeDirs ss := by
  rcases List.eq_nil_or_concat ss with h | ⟨l, a, h⟩
  · simp [h, reviseTail]
  · simp [h, reviseTail, List.getLast?_concat, List.dropLast_concat,
      strokeDirs, List.concat_eq_append]

theorem getLast?_reviseTail (ss : List Stroke) (f : Fractal) (t : Stroke)
    (h : t ∈ (reviseTail ss f).getLast?) :
    ∃ u ∈ ss.getLast?, u.direction = t.direction := by
  rcases List.eq_nil_or_concat ss with hs | ⟨l, a, hs⟩
  · simp [hs, reviseTail] at h
  · subst hs
    refine ⟨a, by simp [List.concat_eq_append, List.getLast?_concat], ?_⟩
    simp only [reviseTail, List.concat_eq_append, List.getLast?_concat,
      List.dropLast_concat] at h
    simp only [Option.mem_def, Option.some.injEq] at h
    subst h
    rfl

theorem strokeStep_inv (st : StrokeState) (f : Fractal) (h : StrokeInv st) :
    StrokeInv (strokeStep st f) := by
  obtain ⟨ss, pend⟩ := st
  obtain ⟨h1, h2⟩ := h
  cases pend with
  | none =>
    refine ⟨h1, ?_⟩
    intro t ht
    rcases h2 t ht with ⟨p, hp, _⟩
    cases hp
  | some p =>
    simp only [strokeStep]
    by_cases htyp : f.typ = p.typ
    · simp only [if_pos htyp]
      by_cases hext : moreExtreme f p = true
      · simp only [if_pos hext]
        refine ⟨?_, ?_⟩
        · unfold StrokeInv Alternating at *
          rw [strokeDirs_reviseTail]
          exact h1
        · intro t ht
          rcases getLast?_reviseTail ss f t ht with ⟨u, hu, hdir⟩
          rcases h2 u hu with ⟨q, hq, hqt⟩
          obtain rfl : q = p := by cases hq; rfl
          exact ⟨f, rfl, by rw [htyp, hqt, hdir]⟩
      · simp only [if_neg hext]
        exact ⟨h1, h2⟩
    · simp only [if_neg htyp]
      by_cases hq : (strokeMinGap ≤ f.idx - p.idx && moreExtreme f p) = true
      · simp only [if_pos hq]
        constructor
        · unfold Alternating strokeDirs at h1 ⊢
          rw [List.map_append]
          rw [List.chain'_append]
          refine ⟨h1, by simp, ?_⟩
          intro x hx y hy
          simp only [List.map_cons, List.map_nil, List.head?_cons,
            Option.mem_def, Option.some.injEq] at hy
          subst hy
          rcases List.eq_nil_or_concat ss with hs | ⟨l, a, hs⟩
          · simp [hs] at hx
          · subst hs
            simp only [List.concat_eq_append, List.map_append, List.map_cons,
              List.map_nil, List.getLast?_concat] at hx
            simp only [Option.mem_def, Option.some.injEq] at hx
            subst hx
            rcases h2 a (by
              simp [List.concat_eq_append, List.getLast?_concat]) with
              ⟨q, hq2, hqt⟩
            obtain rfl : q = p := by cases hq2; rfl
            rw [hqt]
            cases a.direction <;> simp [endType, strokeDir]
        · intro t ht
          simp only [List.getLast?_concat] at ht
          simp only [Option.mem_def, Option.some.injEq] at ht
          subst ht
          refine ⟨f, rfl, ?_⟩
          cases hf : f.typ <;> cases hp2 : p.typ <;>
            simp [hf, hp2] at htyp ⊢ <;> simp [strokeDir, endType]
      · simp only [if_neg hq]
        exact ⟨h1, h2⟩

theorem strokeFold_inv (fs : List Fractal) (st : StrokeState)
    (h : StrokeInv st) : StrokeInv (fs.foldl strokeStep st) := by
  induction fs generalizing st with
  | nil => exact h
  | cons f rest ih => exact ih _ (strokeStep_inv st f h)

theorem strokeDirs_markConfirmed (l : List Stroke) :
    strokeDirs (markConfirmed l) = strokeDirs l := by
  induction l with
  | nil => rfl
  | cons s rest ih =>
    cases rest with
    | nil => simp [markConfirmed, strokeDirs]
    | cons t ts =>
      simp only [markConfirmed, strokeDirs, List.map_cons] at ih ⊢
      exact congrArg _ ih

theorem buildStrokes_alternating (strict : Bool) (mcs : List MergedCandle) :
    Alternating (strokeDirs (buildStrokes strict mcs)) := by
  have h := strokeFold_inv (collectFractals strict mcs) ([], none)
    ⟨List.chain'_nil, by simp⟩
  unfold buildStrokes
  rw [strokeDirs_markConfirmed]
  exact h.1

theorem segStep_inv (algo : SegAlgo) (st : SegState) (s : Stroke)
    (h : SegInv st) : SegInv (segStep algo st s) := by
  obtain ⟨h1, h2⟩ := h
  cases hc : st.cur with
  | none =>
    simp only [segStep, hc]
    refine ⟨h1, ?_⟩
    intro t ht
    rcases h2 t ht with ⟨c, hcc, _⟩
    rw [hc] at hcc
    cases hcc
  | some c =>
    simp only [segStep, hc]
    by_cases hcl : segCloses algo c s = true
    · simp only [if_pos hcl]
      constructor
      · unfold Alternating segmentDirs at h1 ⊢
        simp only [List.map_append, List.map_cons, List.map_nil]
        rw [List.chain'_append]
        refine ⟨h1, by simp, ?_⟩
        intro x hx y hy
        simp only [List.head?_cons, Option.mem_def, Option.some.injEq] at hy
        subst hy
        rcases List.eq_nil_or_concat st.segs with hs | ⟨l, a, hs⟩
        · simp [hs] at hx
        · rw [hs] at hx
          simp only [List.concat_eq_append, List.map_append, List.map_cons,
            List.map_nil, List.getLast?_concat] at hx
          simp only [Option.mem_def, Option.some.injEq] at hx
          subst hx
          rcases h2 a (by
            simp [hs, List.concat_eq_append, List.getLast?_concat]) with
            ⟨c2, hc2, hct⟩
          obtain rfl : c2 = c := by rw [hc] at hc2; cases hc2; rfl
          rw [hct]
          cases a.direction <;> simp [oppDir]
      · intro t ht
        simp only [List.getLast?_concat] at ht
        simp only [Option.mem_def, Option.some.injEq] at ht
        subst ht
        exact ⟨_, rfl, rfl⟩
    · simp only [if_neg hcl]
      refine ⟨h1, ?_⟩
      intro t ht
      rcases h2 t ht with ⟨c2, hc2, hct⟩
      obtain rfl : c2 = c := by rw [hc] at hc2; cases hc2; rfl
      exact ⟨_, rfl, hct⟩

theorem segFold_inv (algo : SegAlgo) (ss : List Stroke) (st : SegState)
    (h : SegInv st) : SegInv (ss.foldl (segStep algo) st) := by
  induction ss generalizing st with
  | nil => exact h
  | cons s rest ih => exact ih _ (segStep_inv algo st s h)

theorem segmentDirs_markConfirmedSeg (l : List Segment) :
    segmentDirs (markConfirmedSeg l) = segmentDirs l := by
  induction l with
  | nil => rfl
  | cons s rest ih =>
    cases rest with
    | nil => simp [markConfirmedSeg, segmentDirs]
    | cons t ts =>
      simp only [markConfirmedSeg, segmentDirs, List.map_cons] at ih ⊢
      exact congrArg _ ih

theorem buildSegments_alternating (algo : SegAlgo) (ss : List Stroke) :
    Alternating (segmentDirs (buildSegments algo ss)) := by
  have h := segFold_inv algo ss ⟨[], none⟩ ⟨List.chain'_nil, by simp⟩
  unfold buildSegments
  rw [segmentDirs_markConfirmedSeg]
  exact h.1

theorem feedFold_recompute (cfg : Conf) (bars : List Bar) (bs0 : List Bar) :
    ∃ bs, bars.foldl (fun ctx b => (feed ctx b).1) (recompute cfg bs0) =
      recompute cfg bs := by
  induction bars generalizing bs0 with
  | nil => exact ⟨bs0, rfl⟩
  | cons b rest ih =>
    simp only [List.foldl_cons]
    by_cases h : barMalformed (recompute cfg bs0) b = true
    · rw [show (feed (recompute cfg bs0) b).1 = recompute cfg bs0 by
        simp [feed, h]]
      exact ih bs0
    · rw [show (feed (recompute cfg bs0) b).1 = recompute cfg (bs0 ++ [b]) by
        simp [feed, h]; rfl]
      exact ih (bs0 ++ [b])

theorem replay_recompute (cfg : Conf) (bars : List Bar) :
    ∃ bs, replay cfg bars = recompute cfg bs :=
  feedFold_recompute cfg bars []

/-- C1: replaying the same bar sequence with the same configuration into a
fresh context yields identical structural lists in both runs — the pipeline's
output is a deterministic function of the input bar sequence and the
configuration alone. -/
theorem replay_deterministic (cfg cfg2 : Conf) (bars bars2 : List Bar)
    (hc : cfg = cfg2) (hb : bars = bars2) :
    (replay cfg bars).mergedCandles = (replay cfg2 bars2).mergedCandles ∧
    (replay cfg bars).strokes = (replay cfg2 bars2).strokes ∧
    (replay cfg bars).segments = (replay cfg2 bars2).segments ∧
    (replay cfg bars).zones = (replay cfg2 bars2).zones ∧
    (replay cfg bars).signals = (replay cfg2 bars2).signals := by
  subst hc
  subst hb
  exact ⟨rfl, rfl, rfl, rfl, rfl⟩

/-- Witness for C1: two replays of a concrete two-bar sequence with the
default configuration agree on every structural list. -/
theorem replay_deterministic_witness :
    (replay defaultConf [⟨1, 10, 12, 10, 11, 5⟩, ⟨2, 11, 13, 11, 12, 5⟩]).mergedCandles =
      (replay defaultConf [⟨1, 10, 12, 10, 11, 5⟩, ⟨2, 11, 13, 11, 12, 5⟩]).mergedCandles ∧
    (replay defaultConf [⟨1, 10, 12, 10, 11, 5⟩, ⟨2, 11, 13, 11, 12, 5⟩]).strokes =
      (replay defaultConf [⟨1, 10, 12, 10, 11, 5⟩, ⟨2, 11, 13, 11, 12, 5⟩]).strokes ∧
    (replay defaultConf [⟨1, 10, 12, 10, 11, 5⟩, ⟨2, 11, 13, 11, 12, 5⟩]).segments =
      (replay defaultConf [⟨1, 10, 12, 10, 11, 5⟩, ⟨2, 11, 13, 11, 12, 5⟩]).segments ∧
    (replay defaultConf [⟨1, 10, 12, 10, 11, 5⟩, ⟨2, 11, 13, 11, 12, 5⟩]).zones =
      (replay defaultConf [⟨1, 10, 12, 10, 11, 5⟩, ⟨2, 11, 13, 11, 12, 5⟩]).zones ∧
    (replay defaultConf [⟨1, 10, 12, 10, 11, 5⟩, ⟨2, 11, 13, 11, 12, 5⟩]).signals =
      (replay defaultConf [⟨1, 10, 12, 10, 11, 5⟩, ⟨2, 11, 13, 11, 12, 5⟩]).signals :=
  replay_deterministic defaultConf defaultConf
    [⟨1, 10, 12, 10, 11, 5⟩, ⟨2, 11, 13, 11, 12, 5⟩]
    [⟨1, 10, 12, 10, 11, 5⟩, ⟨2, 11, 13, 11, 12, 5⟩] rfl rfl

/-- C2: in every reachable context — any bar sequence, any configuration,
either segment algorithm — consecutive strokes have opposite directions, and
so do consecutive segments. -/
theorem strokes_and_segments_alternate (cfg : Conf) (bars : List Bar) :
    Alternating (strokeDirs (replay cfg bars).strokes) ∧
    Alternating (segmentDirs (replay cfg bars).segments) := by
  obtain ⟨bs, hb⟩ := replay_recompute cfg bars
  rw [hb]
  exact ⟨buildStrokes_alternating cfg.bi_strict (mergeBars bs),
    buildSegments_alternating cfg.seg_algo
      (buildStrokes cfg.bi_strict (mergeBars bs))⟩

theorem pairwiseOverlap_iff (a b c : Swing) :
    pairwiseOverlap a b c ↔
      max a.low (max b.low c.low) ≤ min a.high (min b.high c.high) := by
  unfold pairwiseOverlap overlaps
  omega

/-- C3: starting from a window of two swings and no open zone, feeding a third
swing opens a zone exactly when the three swings' [low, high] ranges pairwise
overlap, and the opened zone's bounds are the intersection of the three ranges
(low is the maximum of the lows, high the minimum of the highs). -/
theorem zone_opening (cfg : Conf) (zs : List Zone) (a b c : Swing) :
    ((zoneStep cfg ⟨zs, none, [a, b], false⟩ c).openZ = none ↔
      ¬ pairwiseOverlap a b c) ∧
    (∀ z, (zoneStep cfg ⟨zs, none, [a, b], false⟩ c).openZ = some z →
      pairwiseOverlap a b c ∧
      z.low = max a.low (max b.low c.low) ∧
      z.high = min a.high (min b.high c.high)) := by
  by_cases h : max a.low (max b.low c.low) ≤ min a.high (min b.high c.high)
  · constructor
    · simp only [zoneStep, tryOpenZone, if_pos h]
      constructor
      · intro hz
        cases hz
      · intro hnp
        exact absurd ((pairwiseOverlap_iff a b c).mpr h) hnp
    · intro z hz
      simp only [zoneStep, tryOpenZone, if_pos h] at hz
      refine ⟨(pairwiseOverlap_iff a b c).mpr h, ?_, ?_⟩ <;>
        · cases hz
          rfl
  · constructor
    · simp only [zoneStep, tryOpenZone, if_neg h]
      constructor
      · intro _
        exact fun hp => h ((pairwiseOverlap_iff a b c).mp hp)
      · intro _
        trivial
    · intro z hz
      simp only [zoneStep, tryOpenZone, if_neg h] at hz
      cases hz

/-- Witness for C3: three consecutive swings with ranges [100, 110], [95, 108]
and [102, 112] open a zone with bounds [102, 108]. -/
theorem zone_opening_witness :
    ∃ z, (zoneStep defaultConf ⟨[], none, [⟨100, 110, 0⟩, ⟨95, 108, 1⟩], false⟩
        ⟨102, 112, 2⟩).openZ = some z ∧ z.low = 102 ∧ z.high = 108 := by
  have h := zone_opening defaultConf [] ⟨100, 110, 0⟩ ⟨95, 108, 1⟩ ⟨102, 112, 2⟩
  have hz : (zoneStep defaultConf
      ⟨[], none, [⟨100, 110, 0⟩, ⟨95, 108, 1⟩], false⟩ ⟨102, 112, 2⟩).openZ =
      some ⟨0, 0, 2, 102, 108, false, false⟩ := by decide
  rcases h.2 _ hz with ⟨_, hlo, hhi⟩
  exact ⟨_, hz, hlo, hhi⟩

/-- C4: feeding a malformed bar — low above high, or a timestamp not strictly
greater than the previous bar's — fails with `DataError` and is atomic: every
structural list of the context is unchanged by the rejected feed. -/
theorem feed_rejects_malformed (ctx : AnalysisContext) (b : Bar)
    (h : b.high < b.low ∨ ∃ p, ctx.bars.getLast? = some p ∧ b.time ≤ p.time) :
    (feed ctx b).2 = some .dataError ∧
    (feed ctx b).1.mergedCandles = ctx.mergedCandles ∧
    (feed ctx b).1.strokes = ctx.strokes ∧
    (feed ctx b).1.segments = ctx.segments ∧
    (feed ctx b).1.zones = ctx.zones ∧
    (feed ctx b).1.signals = ctx.signals := by
  have hm : barMalformed ctx b = true := by
    unfold barMalformed
    rcases h with h | ⟨p, hp, ht⟩
    · simp [h]
    · simp [hp, ht]
  simp [feed, hm]

/-- Witness for C4: a bar with low 1 above high 0 is rejected with `DataError`
and the fresh default context's structural lists are untouched. -/
theorem feed_rejects_malformed_witness :
    (feed (initContext defaultConf) ⟨0, 0, 0, 1, 0, 0⟩).2 = some .dataError ∧
    (feed (initContext defaultConf) ⟨0, 0, 0, 1, 0, 0⟩).1.mergedCandles =
      (initContext defaultConf).mergedCandles ∧
    (feed (initContext defaultConf) ⟨0, 0, 0, 1, 0, 0⟩).1.strokes =
      (initContext defaultConf).strokes ∧
    (feed (initContext defaultConf) ⟨0, 0, 0, 1, 0, 0⟩).1.segments =
      (initContext defaultConf).segments ∧
    (feed (initContext defaultConf) ⟨0, 0, 0, 1, 0, 0⟩).1.zones =
      (initContext defaultConf).zones ∧
    (feed (initContext defaultConf) ⟨0, 0, 0, 1, 0, 0⟩).1.signals =
      (initContext defaultConf).signals :=
  feed_rejects_malformed (initContext defaultConf) ⟨0, 0, 0, 1, 0, 0⟩
    (Or.inl (by decide))

/-- Counterexample for C5: the configuration record the repository declares
(`ChanConfig` in `types/index.ts`) recognizes `macd_algo`, which is outside
the claimed option set, and does not recognize the claimed option
`seg_algo`. -/
theorem config_keys_counterexample :
    ("macd_algo" ∈ chanConfigKeys ∧ "macd_algo" ∉ specConfigKeys) ∧
    ("seg_algo" ∈ specConfigKeys ∧ "seg_algo" ∉ chanConfigKeys) := by
  decide

/-- C5 (amended): the recognized option set is the one `ChanConfig` declares —
`bi_strict`, `trigger_step`, `divergence_rate`, `bsp2_follow_1`,
`bsp3_follow_1`, `min_zs_cnt`, `bs1_peak`, `macd_algo`, `bs_type`, `zs_algo`;
a configuration whose keys all belong to that set yields a context, any key
outside it raises `ConfigError` at context creation, and a feed never raises
`ConfigError` mid-stream. -/
theorem config_error_at_creation_only (rawKeys : List String) (cfg : Conf) :
    ((∀ k ∈ rawKeys, k ∈ chanConfigKeys) →
      mkContext rawKeys cfg = .ok (initContext cfg)) ∧
    ((∃ k ∈ rawKeys, k ∉ chanConfigKeys) →
      mkContext rawKeys cfg = .error .configError) ∧
    (∀ ctx b, (feed ctx b).2 ≠ some .configError) := by
  refine ⟨?_, ?_, ?_⟩
  · intro h
    have : rawKeys.all (fun k => k ∈ chanConfigKeys) = true := by
      rw [List.all_eq_true]
      intro k hk
      simpa using h k hk
    simp [mkContext, this]
  · rintro ⟨k, hk, hnk⟩
    have : ¬ rawKeys.all (fun k => k ∈ chanConfigKeys) = true := by
      rw [List.all_eq_true]
      intro hall
      exact hnk (by simpa using hall k hk)
    simp [mkContext, this]
  · intro ctx b
    unfold feed
    split <;> simp

/-- Witness for C5 (amended): a known key is accepted, the unknown key
`seg_algo` is rejected at creation, and a concrete feed reports no
`ConfigError`. -/
theorem config_error_at_creation_only_witness :
    mkContext ["bi_strict"] defaultConf = .ok (initContext defaultConf) ∧
    mkContext ["seg_algo"] defaultConf = .error .configError ∧
    (feed (initContext defaultConf) ⟨1, 0, 1, 0, 1, 1⟩).2 ≠
      some .configError :=
  ⟨(config_error_at_creation_only ["bi_strict"] defaultConf).1
      (by decide),
    (config_error_at_creation_only ["seg_algo"] defaultConf).2.1
      ⟨"seg_algo", by decide, by decide⟩,
    (config_error_at_creation_only [] defaultConf).2.2
      (initContext defaultConf) ⟨1, 0, 1, 0, 1, 1⟩⟩

/-- C6: every signal the classifier emits carries a type from the closed set
{1, 2, 3a, 3b, 1p, 2s}, and when `bs_type` restricts the set only types in the
restriction are emitted. -/
theorem signals_bs_type_restricted (cfg : Conf) (zones : List Zone)
    (segs : List Segment) (ss : List Stroke) :
    ∀ s ∈ buildSignals cfg zones segs ss,
      s.typ ∈ cfg.bs_type ∧
      s.typ ∈ [BspType.t1, .t2, .t3a, .t3b, .t1p, .t2s] := by
  intro s hs
  refine ⟨?_, by cases s.typ <;> simp⟩
  unfold buildSignals at hs
  have h := List.mem_filter.mp hs
  simpa using h.2

/-- Witness for C6: a concrete three-segment history with a failing momentum
area emits a type-1 buy signal, whose type lies in the default `bs_type`
restriction and in the closed type set. -/
theorem signals_bs_type_restricted_witness :
    (⟨3, .t1, true, false, (15, 20)⟩ : Signal).typ ∈ defaultConf.bs_type ∧
    (⟨3, .t1, true, false, (15, 20)⟩ : Signal).typ ∈
      [BspType.t1, .t2, .t3a, .t3b, .t1p, .t2s] :=
  signals_bs_type_restricted defaultConf []
    [⟨0, 0, 1, 100, 80, .down, true⟩, ⟨1, 1, 2, 80, 90, .up, true⟩,
     ⟨2, 2, 3, 90, 75, .down, false⟩] []
    ⟨3, .t1, true, false, (15, 20)⟩ (by decide)

/-- Counterexample for C7: the structural record declared by the repository
(`ChanAnalysisResult` in `types/index.ts`) carries a sixth ordered list,
`macd_list`, beyond the five claimed ones; and its Zone record (`ZSInfo`)
carries no `extended` flag at all. -/
theorem result_schema_counterexample :
    ("macd_list" ∈ chanAnalysisResultListFields ∧
      "macd_list" ∉ specResultListFields) ∧
    "extended" ∉ zsInfoFields := by
  decide

/-- C7 (amended): the record queried after a feed carries the five structural
lists (merged candles, strokes, segments, zones, signals) in order, together
with a MACD list and date ticks; every Zone record carries low/high bounds,
begin/end index and a confirmed (`is_sure`) flag, and no `extended` flag. -/
theorem result_schema_amended (code name klt : String) (cfg : Conf)
    (bars : List Bar) :
    (∀ k ∈ specResultListFields, k ∈ chanAnalysisResultListFields) ∧
    (∀ k ∈ ["idx", "begin", "end", "low", "high", "is_sure"],
      k ∈ zsInfoFields) ∧
    "extended" ∉ zsInfoFields ∧
    (queryRecord code name klt (replay cfg bars)).klines =
      (replay cfg bars).mergedCandles.map klineOfMerged ∧
    (queryRecord code name klt (replay cfg bars)).bi_list =
      (replay cfg bars).strokes.map biInfoOfStroke ∧
    (queryRecord code name klt (replay cfg bars)).seg_list =
      (replay cfg bars).segments.map segInfoOfSegment ∧
    (queryRecord code name klt (replay cfg bars)).zs_list =
      (replay cfg bars).zones.map zsInfoOfZone ∧
    (queryRecord code name klt (replay cfg bars)).bsp_list =
      (replay cfg bars).signals.map bspInfoOfSignal := by
  exact ⟨by decide, by decide, by decide, rfl, rfl, rfl, rfl, rfl⟩

/-- Witness for C7 (amended): concrete projections of the amended schema
statement at the default configuration and an empty bar history. -/
theorem result_schema_amended_witness :
    "zs_list" ∈ chanAnalysisResultListFields ∧
    "is_sure" ∈ zsInfoFields ∧
    (queryRecord "000001" "demo" "day" (replay defaultConf [])).zs_list =
      (replay defaultConf []).zones.map zsInfoOfZone :=
  ⟨(result_schema_amended "000001" "demo" "day" defaultConf []).1 "zs_list"
      (by decide),
    (result_schema_amended "000001" "demo" "day" defaultConf []).2.1 "is_sure"
      (by decide),
    (result_schema_amended "000001" "demo" "day" defaultConf []).2.2.2.2.2.2.1⟩

/-- Counterexample for C8: starting from a prior history that already repeats
a code, `addToHistory` keeps both repeats, so the produced history does not
have pairwise-distinct codes for *every* prior history list. -/
theorem addToHistory_counterexample :
    ¬ (((addToHistory ⟨"B", "b"⟩
        ⟨none, none, none, false, .day, 300, [],
         ⟨true, true, true, true, true, true⟩,
         [⟨"A", "a"⟩, ⟨"A", "a"⟩]⟩).history.map StockInfo.code).Nodup) := by
  decide

/-- C8 (amended): provided the prior history has pairwise-distinct codes,
`addToHistory` produces a history whose first element is the given stock,
whose length is at most 20, in which no two entries share a code, and whose
remaining entries are the previous entries with a different code, in their
previous relative order (truncated to 19). -/
theorem addToHistory_spec (stock : StockInfo) (st : AppState)
    (h : (st.history.map StockInfo.code).Nodup) :
    (addToHistory stock st).history.head? = some stock ∧
    (addToHistory stock st).history.length ≤ 20 ∧
    ((addToHistory stock st).history.map StockInfo.code).Nodup ∧
    (addToHistory stock st).history.tail =
      (st.history.filter (fun s => s.code ≠ stock.code)).take 19 := by
  have hh : (addToHistory stock st).history =
      stock :: (st.history.filter (fun s => s.code ≠ stock.code)).take 19 := by
    simp only [addToHistory]
    rw [show (20 : Nat) = 19 + 1 from rfl, List.take_succ_cons]
  refine ⟨by rw [hh]; rfl, ?_, ?_, by rw [hh]; rfl⟩
  · rw [hh]
    simp only [List.length_cons, List.length_take]
    omega
  · rw [hh]
    simp only [List.map_cons, List.nodup_cons]
    constructor
    · intro hmem
      rcases List.mem_map.mp hmem with ⟨s, hs, hcode⟩
      have hs2 : s ∈ st.history.filter (fun s => s.code ≠ stock.code) :=
        List.mem_of_mem_take hs
      have := (List.mem_filter.mp hs2).2
      simp only [decide_eq_true_eq] at this
      exact this hcode
    · refine List.Nodup.sublist ?_ h
      exact List.Sublist.map _
        ((List.take_sublist _ _).trans (List.filter_sublist _))

/-- Witness for C8 (amended): adding a stock to a concrete two-entry history
with distinct codes re-fronts it, stays within bounds, keeps codes distinct,
and preserves the order of the remaining entries. -/
theorem addToHistory_spec_witness :
    (addToHistory ⟨"A", "a"⟩
        ⟨none, none, none, false, .day, 300, [],
         ⟨true, true, true, true, true, true⟩,
         [⟨"B", "b"⟩, ⟨"A", "a2"⟩]⟩).history.head? = some ⟨"A", "a"⟩ ∧
    (addToHistory ⟨"A", "a"⟩
        ⟨none, none, none, false, .day, 300, [],
         ⟨true, true, true, true, true, true⟩,
         [⟨"B", "b"⟩, ⟨"A", "a2"⟩]⟩).history.length ≤ 20 ∧
    ((addToHistory ⟨"A", "a"⟩
        ⟨none, none, none, false, .day, 300, [],
         ⟨true, true, true, true, true, true⟩,
         [⟨"B", "b"⟩, ⟨"A", "a2"⟩]⟩).history.map StockInfo.code).Nodup ∧
    (addToHistory ⟨"A", "a"⟩
        ⟨none, none, none, false, .day, 300, [],
         ⟨true, true, true, true, true, true⟩,
         [⟨"B", "b"⟩, ⟨"A", "a2"⟩]⟩).history.tail =
      (([⟨"B", "b"⟩, ⟨"A", "a2"⟩] :
        List StockInfo).filter (fun s => s.code ≠ "A")).take 19 :=
  addToHistory_spec ⟨"A", "a"⟩
    ⟨none, none, none, false, .day, 300, [],
     ⟨true, true, true, true, true, true⟩,
     [⟨"B", "b"⟩, ⟨"A", "a2"⟩]⟩ (by decide)

/-- C9: `setPlotConfig` sets exactly the fields present in the partial update
to their new values, leaves every absent `plotConfig` field unchanged, and
leaves every other field of the application state unchanged. -/
theorem setPlotConfig_spec (p : PartialPlotConfig) (st : AppState) :
    (∀ b, p.showKline = some b →
      (setPlotConfig p st).plotConfig.showKline = b) ∧
    (p.showKline = none →
      (setPlotConfig p st).plotConfig.showKline = st.plotConfig.showKline) ∧
    (∀ b, p.showBi = some b → (setPlotConfig p st).plotConfig.showBi = b) ∧
    (p.showBi = none →
      (setPlotConfig p st).plotConfig.showBi = st.plotConfig.showBi) ∧
    (∀ b, p.showSeg = some b → (setPlotConfig p st).plotConfig.showSeg = b) ∧
    (p.showSeg = none →
      (setPlotConfig p st).plotConfig.showSeg = st.plotConfig.showSeg) ∧
    (∀ b, p.showZs = some b → (setPlotConfig p st).plotConfig.showZs = b) ∧
    (p.showZs = none →
      (setPlotConfig p st).plotConfig.showZs = st.plotConfig.showZs) ∧
    (∀ b, p.showBsp = some b → (setPlotConfig p st).plotConfig.showBsp = b) ∧
    (p.showBsp = none →
      (setPlotConfig p st).plotConfig.showBsp = st.plotConfig.showBsp) ∧
    (∀ b, p.showMacd = some b →
      (setPlotConfig p st).plotConfig.showMacd = b) ∧
    (p.showMacd = none →
      (setPlotConfig p st).plotConfig.showMacd = st.plotConfig.showMacd) ∧
    (setPlotConfig p st).currentStock = st.currentStock ∧
    (setPlotConfig p st).analysisResult = st.analysisResult ∧
    (setPlotConfig p st).multiLevelResult = st.multiLevelResult ∧
    (setPlotConfig p st).isAnalyzing = st.isAnalyzing ∧
    (setPlotConfig p st).klType = st.klType ∧
    (setPlotConfig p st).periods = st.periods ∧
    (setPlotConfig p st).selectedLevels = st.selectedLevels ∧
    (setPlotConfig p st).history = st.history := by
  refine ⟨?_, ?_, ?_, ?_, ?_, ?_, ?_, ?_, ?_, ?_, ?_, ?_,
    rfl, rfl, rfl, rfl, rfl, rfl, rfl, rfl⟩ <;>
    first
      | (intro b hb
         simp [setPlotConfig, mergePlotConfig, hb])
      | (intro hb
         simp [setPlotConfig, mergePlotConfig, hb])

/-- Witness for C9: a concrete partial update toggling only `showBi` sets that
field, keeps `showKline`, and keeps the current stock. -/
theorem setPlotConfig_spec_witness :
    (setPlotConfig ⟨none, some false, none, none, none, none⟩
        ⟨none, none, none, false, .day, 300, [],
         ⟨true, true, true, true, true, true⟩, []⟩).plotConfig.showBi =
      false ∧
    (setPlotConfig ⟨none, some false, none, none, none, none⟩
        ⟨none, none, none, false, .day, 300, [],
         ⟨true, true, true, true, true, true⟩, []⟩).plotConfig.showKline =
      true ∧
    (setPlotConfig ⟨none, some false, none, none, none, none⟩
        ⟨none, none, none, false, .day, 300, [],
         ⟨true, true, true, true, true, true⟩, []⟩).currentStock = none :=
  ⟨(setPlotConfig_spec ⟨none, some false, none, none, none, none⟩
      ⟨none, none, none, false, .day, 300, [],
       ⟨true, true, true, true, true, true⟩, []⟩).2.2.1 false rfl,
    (setPlotConfig_spec ⟨none, some false, none, none, none, none⟩
      ⟨none, none, none, false, .day, 300, [],
       ⟨true, true, true, true, true, true⟩, []⟩).2.1 rfl,
    (setPlotConfig_spec ⟨none, some false, none, none, none, none⟩
      ⟨none, none, none, false, .day, 300, [],
       ⟨true, true, true, true, true, true⟩, []⟩).2.2.2.2.2.2.2.2.2.2.2.2.1⟩

/-- C10: the state persisted under the `chan-web-storage` key is exactly the
{klType, periods, selectedLevels, plotConfig, history} projection of the
application state; `currentStock`, `analysisResult`, `multiLevelResult` and
`isAnalyzing` never influence what is written to storage. -/
theorem persistEntry_spec (st : AppState) (cs : Option StockInfo)
    (ar : Option ChanAnalysisResult) (ml : Option MultiLevelResult)
    (ia : Bool) :
    persistEntry
      { st with
        currentStock := cs
        analysisResult := ar
        multiLevelResult := ml
        isAnalyzing := ia } = persistEntry st ∧
    (persistEntry st).1 = storageKey ∧
    (persistEntry st).2.klType = st.klType ∧
    (persistEntry st).2.periods = st.periods ∧
    (persistEntry st).2.selectedLevels = st.selectedLevels ∧
    (persistEntry st).2.plotConfig = st.plotConfig ∧
    (persistEntry st).2.history = st.history :=
  ⟨rfl, rfl, rfl, rfl, rfl, rfl, rfl⟩

end ChanTrader
